import Mathlib

/-!
Verification of the staleness-aware content-retrieval pipeline and ranked
search of `src/main.py` (FastAPI service over a Topic store, a Redis-style
TTL cache, an External Refresh Client and an Enrichment Client).

Shallow embedding conventions:
* timestamps are integers counting seconds (UTC); `Env.now` is the value of
  `datetime.datetime.utcnow()` during the request;
* `(now - last_update).days` of a Python `timedelta` is floor division of the
  total seconds by 86400, embedded as `Int.fdiv`;
* the Topic store (SQL table `topics`) is a list of rows in scan order;
  `SELECT ... WHERE sector = :sector ... fetchone()` is `List.find?`;
* the TTL cache is a list of (key, value, expiry) entries; an entry past its
  expiry is equivalent to absent; `setex key ttl v` inserts with
  `expiry = now + ttl`, overwriting the key;
* network clients are oracles in `Env`: `none` means the call failed
  (network error, non-success status, or malformed payload — exactly the
  cases `fetch_api_data` turns into a `None` return);
* a raised-and-uncaught Python exception is `Except.error`;
  `Env.storeFault` injects a storage-layer failure (engine/connection or
  query error) at the head of the request.
-/

namespace Hmd

/-- Row of the `topics` table (src/main.py lines 48-54): sector is the
case-sensitive key; `last_update` is a UTC timestamp in seconds. -/
structure Topic where
  sector : String
  content : String
  further_reading : String
  last_update : Int
deriving Repr, DecidableEq

/-- Payload returned by the External Refresh Client on success
(the JSON document of src/main.py line 97). -/
structure ApiPayload where
  content : String
  further_reading : String
deriving Repr, DecidableEq

/-- Serialized cache values: `json.dumps` of the refresh payload (stored
under `api_<sector>`) or of the enrichment summary list (stored under
`academic_<sector>`). Round-tripping dumps/loads is the identity here. -/
inductive Val where
  | apiData (p : ApiPayload)
  | academicData (summaries : List String)
deriving Repr, DecidableEq

/-- One entry of the TTL cache: key, serialized value, absolute expiry. -/
structure CacheEntry where
  key : String
  value : Val
  expiry : Int
deriving Repr, DecidableEq

/-- Cache read (`redis_client.get`): first live entry for the key; an entry
whose expiry has passed is equivalent to absent. -/
def cacheGet (cache : List CacheEntry) (now : Int) (key : String) : Option Val :=
  match cache.find? (fun e => e.key == key && decide (now < e.expiry)) with
  | some e => some e.value
  | none => none

/-- Cache write (`redis_client.setex key ttl v`, src/main.py line 98):
overwrite the key with expiry `now + ttl`. -/
def cacheSet (cache : List CacheEntry) (now : Int) (key : String) (v : Val) (ttl : Int) :
    List CacheEntry :=
  ⟨key, v, now + ttl⟩ :: cache.filter (fun e => !(e.key == key))

/-- Point lookup `SELECT ... FROM topics WHERE sector = :sector` + `fetchone()`
(src/main.py lines 115-116 and 136-137): first row in scan order. -/
def storeFind (store : List Topic) (sector : String) : Option Topic :=
  store.find? (fun t => t.sector == sector)

/-- Upsert by sector: overwrite content/further_reading/last_update of the
matching rows, or insert a fresh row. (Used by the spec-modelled
`update_topic_from_api`.) -/
def storeUpsert (store : List Topic) (t : Topic) : List Topic :=
  if (storeFind store t.sector).isSome then
    store.map (fun u => if u.sector == t.sector then
      ⟨u.sector, t.content, t.further_reading, t.last_update⟩ else u)
  else store ++ [t]

/-- Observable network-client invocations of a single request. -/
inductive Event where
  | apiCall (sector : String)
  | academicCall (sector : String)
deriving Repr, DecidableEq

/-- Behaviour of the external collaborators during one request. `api` and
`academic` return `none` exactly when the corresponding client call fails
(network error, bad status, malformed payload). `storeFault` injects a
storage failure (engine acquisition / query error) into the request. -/
structure Env where
  now : Int
  api : String → Option ApiPayload
  academic : String → Option (List String)
  storeFault : Option String

/-- The opaque NLP answer-generation step, `answer(context, question)`.
The source (src/main.py lines 129-130) returns this placeholder literal
whatever the context; it is still a function of the context it was handed. -/
def placeholderAnswer (_context _question : String) : String :=
  "Answer based on the context"

/-- Context assembly of src/main.py lines 120-127: start from the stored
content; when enrichment data is present append each summary on its own
line, in the order received. -/
def buildContext (content : String) (acad : Option (List String)) : String :=
  match acad with
  | some summaries => content ++ "\n" ++ String.intercalate "\n" summaries
  | none => content

/-- `fetch_api_data` (src/main.py lines 91-104): call the External Refresh
Client; on HTTP 200 cache the payload under `api_<sector>` for 3600 s and
return it; on any ClientError / bad status / JSON decode error, log and
return nothing. Returns (payload?, cache after, client events). -/
def fetch_api_data (env : Env) (cache : List CacheEntry) (sector : String) :
    Option ApiPayload × List CacheEntry × List Event :=
  match env.api sector with
  | some data =>
      (some data, cacheSet cache env.now ("api_" ++ sector) (Val.apiData data) 3600,
        [Event.apiCall sector])
  | none => (none, cache, [Event.apiCall sector])

/-- `should_fetch_from_api` (src/main.py lines 135-138): true when the sector
has no stored row, or when `(utcnow() - last_update).days > 7` — Python
`timedelta.days` is floor division of the age in seconds by 86400. -/
def should_fetch_from_api (now : Int) (store : List Topic) (sector : String) : Bool :=
  match storeFind store sector with
  | none => true
  | some t => decide (7 < Int.fdiv (now - t.last_update) 86400)

/-- Modelled from the spec: `update_topic_from_api` is called at
src/main.py line 113 but is not defined anywhere in the source. Spec §4.2:
invoke the External Refresh Client for the sector (which itself populates
`api_<sector>`, src/main.py line 98); on success upsert the Topic Store
(overwrite content/further_reading, set last_update = now); on failure log
and proceed with whatever is currently stored. -/
def update_topic_from_api (env : Env) (store : List Topic) (cache : List CacheEntry)
    (sector : String) : List Topic × List CacheEntry × List Event :=
  match fetch_api_data env cache sector with
  | (some data, cache2, evs) =>
      (storeUpsert store ⟨sector, data.content, data.further_reading, env.now⟩, cache2, evs)
  | (none, cache2, evs) => (store, cache2, evs)

/-- Modelled from the spec: `fetch_academic_resources` is called at
src/main.py line 124 but is not defined anywhere in the source. Spec §4.2:
on cache miss call the Enrichment Client; on success cache the serialized
summaries under `academic_<sector>` for the 1-hour TTL window and return
them; on failure return nothing. -/
def fetch_academic_resources (env : Env) (cache : List CacheEntry) (sector : String) :
    Option (List String) × List CacheEntry × List Event :=
  match env.academic sector with
  | some summaries =>
      (some summaries,
        cacheSet cache env.now ("academic_" ++ sector) (Val.academicData summaries) 3600,
        [Event.academicCall sector])
  | none => (none, cache, [Event.academicCall sector])

/-- The optional refresh step of src/main.py lines 112-113: skipped when
offline or when the stored row is fresh. -/
def refreshStep (env : Env) (store : List Topic) (cache : List CacheEntry)
    (sector : String) (offline_mode : Bool) : List Topic × List CacheEntry × List Event :=
  if !offline_mode && should_fetch_from_api env.now store sector then
    update_topic_from_api env store cache sector
  else (store, cache, [])

/-- The enrichment step of src/main.py lines 121-127: read
`academic_<sector>` from the cache; on miss call the (spec-modelled)
`fetch_academic_resources`; a cached value that does not deserialize to a
summary list raises (caught at the orchestrator boundary). -/
def enrichStep (env : Env) (cache : List CacheEntry) (sector : String) :
    Except String (Option (List String)) × List CacheEntry × List Event :=
  match cacheGet cache env.now ("academic_" ++ sector) with
  | some (Val.academicData summaries) => (Except.ok (some summaries), cache, [])
  | some (Val.apiData _) => (Except.error "malformed academic cache entry", cache, [])
  | none =>
      match fetch_academic_resources env cache sector with
      | (acad, cache2, evs) => (Except.ok acad, cache2, evs)

/-- The fixed "no information" answer of src/main.py line 118. -/
def noInfoMsg : String := "I\x27m sorry, I don\x27t have information on that sector."

/-- Outcome of one `get_advanced_topic_content` request: the (answer, link)
response plus the final store and cache states and the client calls made. -/
structure RunResult where
  answer : String
  link : Option String
  store : List Topic
  cache : List CacheEntry
  events : List Event
deriving Repr, DecidableEq

/-- Second half of the `get_advanced_topic_content` body (src/main.py lines
115-130): re-read of the topic row, context assembly with optional
enrichment, placeholder answer. `store1`/`cache1`/`evs1` are the state and
client calls left by the optional refresh step. -/
def postRefresh (env : Env) (store1 : List Topic) (cache1 : List CacheEntry)
    (evs1 : List Event) (question sector : String) (offline_mode : Bool) :
    Except String RunResult :=
  match storeFind store1 sector with
  | none => Except.ok ⟨noInfoMsg, none, store1, cache1, evs1⟩
  | some topic =>
    if offline_mode then
      Except.ok ⟨placeholderAnswer topic.content question,
        some topic.further_reading, store1, cache1, evs1⟩
    else
      match enrichStep env cache1 sector with
      | (Except.error e, _, _) => Except.error e
      | (Except.ok acad, cache2, evs2) =>
        Except.ok ⟨placeholderAnswer (buildContext topic.content acad) question,
          some topic.further_reading, store1, cache2, evs1 ++ evs2⟩

/-- Body of `get_advanced_topic_content` (src/main.py lines 110-130), i.e.
everything inside the `try`: optional refresh, then `postRefresh`. An
`Except.error` is an exception escaping the body. -/
def getTopicContentBody (env : Env) (store : List Topic) (cache : List CacheEntry)
    (question sector : String) (offline_mode : Bool) : Except String RunResult :=
  match env.storeFault with
  | some e => Except.error e
  | none =>
    match refreshStep env store cache sector offline_mode with
    | (store1, cache1, evs1) => postRefresh env store1 cache1 evs1 question sector offline_mode

/-- `get_advanced_topic_content` (src/main.py lines 108-133): the body under
the catch-all `except Exception` of lines 131-133, which turns any escaping
exception `e` into the response `("An error occurred: " + str(e), None)`. -/
def get_advanced_topic_content (env : Env) (store : List Topic) (cache : List CacheEntry)
    (question sector : String) (offline_mode : Bool) : RunResult :=
  match getTopicContentBody env store cache question sector offline_mode with
  | Except.ok r => r
  | Except.error e => ⟨"An error occurred: " ++ e, none, store, cache, []⟩

/-- `calculate_relevance_score` (src/main.py lines 150-152): the placeholder
constant score 0.5. -/
def calculate_relevance_score (_query _content : String) (_last_update : Int)
    (_user_preferences : Option String) : ℚ :=
  0.5

/-- Insert into a list already sorted by score descending, before the first
element of lower-or-equal score (so that, processing right-to-left, earlier
input elements end up before later equal-scored ones). -/
def insertByScore (x : String × String × ℚ) :
    List (String × String × ℚ) → List (String × String × ℚ)
  | [] => [x]
  | y :: ys => if y.2.2 ≤ x.2.2 then x :: y :: ys else y :: insertByScore x ys

/-- Stable sort by score descending — the behaviour of Python
`sorted(results, key=lambda x: x[2], reverse=True)` at src/main.py line 148. -/
def sortByScoreDesc : List (String × String × ℚ) → List (String × String × ℚ)
  | [] => []
  | x :: xs => insertByScore x (sortByScoreDesc xs)

/-- `advanced_search` (src/main.py lines 140-148): scan every topic row,
score it, keep the rows with positive score, sort by score descending
(stable) and truncate to the top 10. -/
def advanced_search (store : List Topic) (query : String)
    (user_preferences : Option String) : List (String × String × ℚ) :=
  (sortByScoreDesc (store.filterMap (fun t =>
    if 0 < calculate_relevance_score query t.content t.last_update user_preferences then
      some (t.sector, t.content,
        calculate_relevance_score query t.content t.last_update user_preferences)
    else none))).take 10

/-- `advanced_search` with the storage layer made explicit: the function has
no exception handler (src/main.py lines 140-148), so a storage failure while
acquiring the engine or scanning the table escapes to the caller. -/
def advanced_searchE (env : Env) (store : List Topic) (query : String)
    (user_preferences : Option String) : Except String (List (String × String × ℚ)) :=
  match env.storeFault with
  | some e => Except.error e
  | none => Except.ok (advanced_search store query user_preferences)

/-- Test environment: External Refresh Client succeeds with a fixed payload,
Enrichment Client fails, storage healthy, clock at 1000 s. -/
def envRefresh : Env := ⟨1000, fun _ => some ⟨"Newton content", "http://x"⟩, fun _ => none, none⟩

/-- Test environment: both network clients fail, storage healthy, clock at 0. -/
def envQuiet : Env := ⟨0, fun _ => none, fun _ => none, none⟩

/-- Test environment: the storage layer raises "db down" at the head of the
request. -/
def envDown : Env := ⟨0, fun _ => none, fun _ => none, some "db down"⟩

/-- Test topic row. -/
def topicP : Topic := ⟨"physics", "stored content", "http://stored", 0⟩

/-- Test cache holding only an `api_*` entry. -/
def cacheApiOnly : List CacheEntry := [⟨"api_physics", Val.apiData ⟨"cached", "http://c"⟩, 10⟩]

/-- Test environment: clock at 864000 s (10 days), both network clients
fail, storage healthy — a Scenario-B-like stale-topic setting. -/
def envLate : Env := ⟨864000, fun _ => none, fun _ => none, none⟩

/-! ## Helper lemmas -/

theorem find?_filter_of_imp (p q : α → Bool) (l : List α)
    (h : ∀ e, p e = true → q e = true) :
    (l.filter q).find? p = l.find? p := by
  induction l with
  | nil => rfl
  | cons e l ih =>
    by_cases hq : q e = true
    · rw [List.filter_cons_of_pos hq, List.find?_cons, List.find?_cons]
      cases hp : p e
      · exact ih
      · rfl
    · have hp : p e = false := by
        cases hpe : p e
        · rfl
        · exact absurd (h e hpe) hq
      rw [List.filter_cons_of_neg (by simpa using hq), ih, List.find?_cons, hp]

theorem apiKey_ne_academicKey (x y : String) : "api_" ++ x ≠ "academic_" ++ y := by
  intro h
  have h2 := congrArg String.data h
  rw [String.data_append, String.data_append] at h2
  simp at h2

theorem cacheGet_cacheSet_ne (cache : List CacheEntry) (t0 now : Int) (k k' : String)
    (v : Val) (ttl : Int) (h : k' ≠ k) :
    cacheGet (cacheSet cache t0 k v ttl) now k' = cacheGet cache now k' := by
  unfold cacheGet cacheSet
  rw [List.find?_cons_of_neg, find?_filter_of_imp]
  · intro e he
    simp only [Bool.and_eq_true, beq_iff_eq, decide_eq_true_eq] at he
    simp [he.1, h]
  · simp [Ne.symm h]

theorem cacheGet_cacheSet_hit (cache : List CacheEntry) (t0 now : Int) (k : String)
    (v : Val) (ttl : Int) (h : now < t0 + ttl) :
    cacheGet (cacheSet cache t0 k v ttl) now k = some v := by
  unfold cacheGet cacheSet
  rw [List.find?_cons_of_pos]
  simp [h]

theorem storeFind_upsert_absent (store : List Topic) (t : Topic)
    (h : storeFind store t.sector = none) :
    storeFind (storeUpsert store t) t.sector = some t := by
  unfold storeUpsert
  rw [h]
  simp only [Option.isSome_none, Bool.false_eq_true, if_false]
  unfold storeFind at h ⊢
  rw [List.find?_append, h]
  simp

theorem find?_map_upsert (store : List Topic) (v t : Topic)
    (h : storeFind store v.sector = some t) :
    storeFind (store.map (fun u => if u.sector == v.sector then
        (⟨u.sector, v.content, v.further_reading, v.last_update⟩ : Topic) else u)) v.sector =
      some ⟨t.sector, v.content, v.further_reading, v.last_update⟩ := by
  induction store with
  | nil => cases h
  | cons u us ih =>
    simp only [storeFind] at h ih ⊢
    rw [List.map_cons]
    by_cases hp : (u.sector == v.sector) = true
    · have h2 : List.find? (fun x : Topic => x.sector == v.sector) (u :: us) = some u :=
        List.find?_cons_of_pos _ hp
      rw [h2] at h
      injection h with h'
      subst h'
      rw [if_pos hp]
      exact List.find?_cons_of_pos _ hp
    · have h2 : List.find? (fun x : Topic => x.sector == v.sector) (u :: us) =
          List.find? (fun x : Topic => x.sector == v.sector) us :=
        List.find?_cons_of_neg _ hp
      rw [h2] at h
      rw [if_neg hp]
      have h3 : List.find? (fun x : Topic => x.sector == v.sector)
          (u :: List.map (fun w => if w.sector == v.sector then
            (⟨w.sector, v.content, v.further_reading, v.last_update⟩ : Topic) else w) us) =
          List.find? (fun x : Topic => x.sector == v.sector)
          (List.map (fun w => if w.sector == v.sector then
            (⟨w.sector, v.content, v.further_reading, v.last_update⟩ : Topic) else w) us) :=
        List.find?_cons_of_neg _ hp
      rw [h3]
      exact ih h

theorem storeFind_upsert_found (store : List Topic) (v t : Topic)
    (h : storeFind store v.sector = some t) :
    storeFind (storeUpsert store v) v.sector =
      some ⟨t.sector, v.content, v.further_reading, v.last_update⟩ := by
  unfold storeUpsert
  rw [h]
  simp only [Option.isSome_some, if_true]
  exact find?_map_upsert store v t h

theorem insertByScore_forall_eq (x : String × String × ℚ) (l : List (String × String × ℚ))
    (c : ℚ) (hx : x.2.2 = c) (hl : ∀ y ∈ l, y.2.2 = c) :
    insertByScore x l = x :: l := by
  cases l with
  | nil => rfl
  | cons y ys =>
    unfold insertByScore
    rw [if_pos]
    rw [hx, hl y (by simp)]

theorem sortByScoreDesc_forall_eq (l : List (String × String × ℚ)) (c : ℚ)
    (hl : ∀ y ∈ l, y.2.2 = c) : sortByScoreDesc l = l := by
  induction l with
  | nil => rfl
  | cons x xs ih =>
    unfold sortByScoreDesc
    rw [ih (fun y hy => hl y (List.mem_cons_of_mem x hy))]
    exact insertByScore_forall_eq x xs c (hl x (List.mem_cons_self x xs))
      (fun y hy => hl y (List.mem_cons_of_mem x hy))

theorem filterMap_some_eq_map (f : α → β) (l : List α) :
    l.filterMap (fun a => some (f a)) = l.map f := by
  induction l with
  | nil => rfl
  | cons a l ih => simp [List.filterMap_cons, ih]

theorem advanced_search_eq_take_map (store : List Topic) (q : String)
    (prefs : Option String) :
    advanced_search store q prefs =
      (store.map (fun t => (t.sector, t.content, (0.5 : ℚ)))).take 10 := by
  have hpos : (0 : ℚ) < 0.5 := by norm_num
  have hfun : (fun t : Topic =>
      if 0 < calculate_relevance_score q t.content t.last_update prefs then
        some (t.sector, t.content, calculate_relevance_score q t.content t.last_update prefs)
      else none) = fun t : Topic => some (t.sector, t.content, (0.5 : ℚ)) := by
    funext t
    simp only [calculate_relevance_score]
    rw [if_pos hpos]
  unfold advanced_search
  rw [hfun, filterMap_some_eq_map, sortByScoreDesc_forall_eq _ (0.5 : ℚ)]
  intro y hy
  obtain ⟨t, _, rfl⟩ := List.mem_map.mp hy
  rfl

theorem chain_of_score_const (l : List (String × String × ℚ)) (c : ℚ)
    (h : ∀ y ∈ l, y.2.2 = c) :
    List.Chain' (fun a b => b.2.2 ≤ a.2.2) l := by
  induction l with
  | nil => exact List.chain'_nil
  | cons x xs ih =>
    cases xs with
    | nil => exact List.chain'_singleton x
    | cons y ys =>
      rw [List.chain'_cons]
      refine ⟨?_, ih (fun z hz => h z (List.mem_cons_of_mem x hz))⟩
      rw [h x (List.mem_cons_self x _), h y (List.mem_cons_of_mem x (List.mem_cons_self y _))]

theorem should_fetch_iff (now : Int) (store : List Topic) (sector : String) :
    should_fetch_from_api now store sector = true ↔
      storeFind store sector = none ∨
        ∃ t, storeFind store sector = some t ∧ 8 * 86400 ≤ now - t.last_update := by
  unfold should_fetch_from_api
  cases h : storeFind store sector with
  | none => simp
  | some t =>
    simp only [decide_eq_true_eq, reduceCtorEq, false_or, Option.some.injEq]
    rw [Int.fdiv_eq_ediv _ (by norm_num)]
    constructor
    · intro hlt
      refine ⟨t, rfl, ?_⟩
      have h8 : (8 : Int) ≤ (now - t.last_update) / 86400 := by omega
      have := (Int.le_ediv_iff_mul_le (by norm_num : (0:Int) < 86400)).mp h8
      omega
    · rintro ⟨t', ht', hle⟩
      cases ht'
      have h8 : (8 : Int) ≤ (now - t.last_update) / 86400 :=
        (Int.le_ediv_iff_mul_le (by norm_num : (0:Int) < 86400)).mpr (by omega)
      omega

theorem apiCall_not_mem_enrich (env : Env) (cache : List CacheEntry) (sector s : String) :
    Event.apiCall s ∉ (enrichStep env cache sector).2.2 := by
  unfold enrichStep fetch_academic_resources
  cases h : cacheGet cache env.now ("academic_" ++ sector) with
  | none => cases env.academic sector <;> simp
  | some v => cases v <;> simp

theorem mem_cacheSet_of_mem_ne (e : CacheEntry) (cache : List CacheEntry) (t0 : Int)
    (k : String) (v : Val) (ttl : Int) (he : e ∈ cache) (hk : e.key ≠ k) :
    e ∈ cacheSet cache t0 k v ttl := by
  unfold cacheSet
  exact List.mem_cons_of_mem _ (List.mem_filter.mpr ⟨he, by simp [hk]⟩)

theorem mem_enrich_cache (env : Env) (cache : List CacheEntry) (sector : String)
    (e : CacheEntry) (he : e ∈ cache) (hk : e.key ≠ "academic_" ++ sector) :
    e ∈ (enrichStep env cache sector).2.1 := by
  unfold enrichStep fetch_academic_resources
  cases hv : cacheGet cache env.now ("academic_" ++ sector) with
  | none =>
    cases env.academic sector with
    | some summaries => simpa using mem_cacheSet_of_mem_ne e cache env.now _ _ 3600 he hk
    | none => simpa using he
  | some v => cases v <;> simpa using he

theorem refreshStep_api_fail (env : Env) (store : List Topic) (cache : List CacheEntry)
    (sector : String) (hapi : env.api sector = none) :
    refreshStep env store cache sector false =
      (store, cache,
        if should_fetch_from_api env.now store sector then [Event.apiCall sector] else []) := by
  unfold refreshStep update_topic_from_api fetch_api_data
  rw [hapi]
  cases hsf : should_fetch_from_api env.now store sector <;> simp [hsf]

theorem refreshStep_api_success (env : Env) (store : List Topic) (cache : List CacheEntry)
    (sector : String) (payload : ApiPayload)
    (hsf : should_fetch_from_api env.now store sector = true)
    (hapi : env.api sector = some payload) :
    refreshStep env store cache sector false =
      (storeUpsert store ⟨sector, payload.content, payload.further_reading, env.now⟩,
        cacheSet cache env.now ("api_" ++ sector) (Val.apiData payload) 3600,
        [Event.apiCall sector]) := by
  unfold refreshStep update_topic_from_api fetch_api_data
  rw [hapi]
  simp [hsf]

theorem enrichStep_ok_of_no_apiData (env : Env) (cache : List CacheEntry) (sector : String)
    (hacad : ∀ p, cacheGet cache env.now ("academic_" ++ sector) ≠ some (Val.apiData p)) :
    ∃ acad cache2 evs2, enrichStep env cache sector = (Except.ok acad, cache2, evs2) := by
  unfold enrichStep fetch_academic_resources
  cases hv : cacheGet cache env.now ("academic_" ++ sector) with
  | none => cases env.academic sector <;> exact ⟨_, _, _, rfl⟩
  | some v =>
    cases v with
    | apiData p => exact absurd hv (hacad p)
    | academicData summaries => exact ⟨_, _, _, rfl⟩

theorem postRefresh_agree (env : Env) (store1 : List Topic) (c1 c2 : List CacheEntry)
    (evs1 : List Event) (q sector : String) (off : Bool)
    (hcg : cacheGet c1 env.now ("academic_" ++ sector) =
      cacheGet c2 env.now ("academic_" ++ sector)) :
    (postRefresh env store1 c1 evs1 q sector off).map
        (fun r => (r.answer, r.link, r.store, r.events)) =
      (postRefresh env store1 c2 evs1 q sector off).map
        (fun r => (r.answer, r.link, r.store, r.events)) := by
  unfold postRefresh
  cases hfind : storeFind store1 sector with
  | none => rfl
  | some topic =>
    cases off with
    | true => rfl
    | false =>
      unfold enrichStep fetch_academic_resources
      rw [hcg]
      cases hv : cacheGet c2 env.now ("academic_" ++ sector) with
      | some v => cases v <;> rfl
      | none => cases env.academic sector <;> rfl

theorem refresh_cache_agree (env : Env) (store : List Topic) (c1 c2 : List CacheEntry)
    (sector : String)
    (hagree : ∀ k, (∀ x, k ≠ "api_" ++ x) → cacheGet c1 env.now k = cacheGet c2 env.now k) :
    (refreshStep env store c1 sector false).1 = (refreshStep env store c2 sector false).1 ∧
    (refreshStep env store c1 sector false).2.2 = (refreshStep env store c2 sector false).2.2 ∧
    cacheGet (refreshStep env store c1 sector false).2.1 env.now ("academic_" ++ sector) =
      cacheGet (refreshStep env store c2 sector false).2.1 env.now ("academic_" ++ sector) := by
  have hak : ∀ x, ("academic_" ++ sector : String) ≠ "api_" ++ x :=
    fun x h => apiKey_ne_academicKey x sector h.symm
  unfold refreshStep update_topic_from_api fetch_api_data
  cases hsf : should_fetch_from_api env.now store sector with
  | false =>
    simp only [hsf, Bool.not_false, Bool.true_and, Bool.false_eq_true, if_false]
    exact ⟨by simp, by simp, hagree _ hak⟩
  | true =>
    simp only [hsf, Bool.not_false, Bool.true_and, if_true]
    cases env.api sector with
    | some data =>
      refine ⟨by simp, by simp, ?_⟩
      rw [cacheGet_cacheSet_ne c1 env.now env.now _ _ _ _ (hak sector),
        cacheGet_cacheSet_ne c2 env.now env.now _ _ _ _ (hak sector)]
      exact hagree _ hak
    | none => exact ⟨by simp, by simp, hagree _ hak⟩

/-! ## Claim theorems -/

/-- C2 counterexample. The claim says a stored Topic whose age is
7 days + 1 second (604801 s) is stale and triggers a refresh; in the code
`(now - last_update).days > 7` computes `604801.fdiv 86400 = 7 > 7 = false`,
so `should_fetch_from_api` returns false at that exact input even though the
age exceeds 7 days. -/
theorem claim2_staleness_boundary_cex :
    ((604801 : Int) - 0 > 7 * 86400) ∧
    should_fetch_from_api 604801 [⟨"physics", "c", "l", 0⟩] "physics" = false := by
  refine ⟨by norm_num, ?_⟩
  decide

/-- C2 (amended): `should_fetch_from_api` returns true exactly when the
stored Topic for the sector is absent or the age `now - last_update` is at
least 8 days (i.e. the Python floor `.days` of the age exceeds 7); any
stored Topic younger than 8 days — including one aged exactly 7 days and one
aged 7 days + 1 second — is not stale, and a `get_advanced_topic_content`
request for it makes no call to the External Refresh Client. -/
theorem claim2_staleness_boundary :
    (∀ (now : Int) (store : List Topic) (sector : String),
      should_fetch_from_api now store sector = true ↔
        storeFind store sector = none ∨
          ∃ t, storeFind store sector = some t ∧ 8 * 86400 ≤ now - t.last_update) ∧
    (∀ (env : Env) (store : List Topic) (cache : List CacheEntry) (q sector : String)
        (t : Topic), storeFind store sector = some t →
      env.now - t.last_update < 8 * 86400 →
      Event.apiCall sector ∉ (get_advanced_topic_content env store cache q sector false).events) := by
  refine ⟨should_fetch_iff, ?_⟩
  intro env store cache q sector t ht hage
  have hsf : should_fetch_from_api env.now store sector = false := by
    rw [Bool.eq_false_iff]
    intro htrue
    rcases (should_fetch_iff env.now store sector).mp htrue with h | ⟨t', ht', hle⟩
    · rw [h] at ht; cases ht
    · rw [ht] at ht'
      injection ht' with h'
      rw [← h'] at hle
      omega
  unfold get_advanced_topic_content getTopicContentBody postRefresh
  cases hfault : env.storeFault with
  | some e => simp
  | none =>
    unfold refreshStep
    simp only [hsf, Bool.not_false, Bool.true_and, Bool.false_eq_true, if_false, ht]
    rcases he : enrichStep env cache sector with ⟨res, cache2, evs2⟩
    cases res with
    | error e => simp [he]
    | ok acad =>
      have hmem := apiCall_not_mem_enrich env cache sector sector
      rw [he] at hmem
      simp only [List.nil_append] at hmem ⊢
      simpa [he] using hmem

/-- C2 witness: a Topic aged exactly 8 days is stale; a Topic aged 0 s
triggers no External Refresh Client call. -/
theorem claim2_staleness_boundary_witness :
    (should_fetch_from_api 691200 [⟨"physics", "c", "l", 0⟩] "physics" = true) ∧
    (storeFind [topicP] "physics" = some topicP ∧
      envQuiet.now - topicP.last_update < 8 * 86400 ∧
      Event.apiCall "physics" ∉
        (get_advanced_topic_content envQuiet [topicP] [] "q" "physics" false).events) :=
  ⟨(claim2_staleness_boundary.1 691200 [⟨"physics", "c", "l", 0⟩] "physics").mpr
      (Or.inr ⟨⟨"physics", "c", "l", 0⟩, by decide, by decide⟩),
    by decide,
    by decide,
    claim2_staleness_boundary.2 envQuiet [topicP] [] "q" "physics" topicP
      (by decide) (by decide)⟩

/-- C5: any failure raised inside the content-retrieval body is caught by
the `except Exception` handler of src/main.py lines 131-133 and surfaced as
a textual error answer paired with a null link; the operation always
produces an (answer, link) response (it is a total function into
`RunResult`) and never an unhandled fault. -/
theorem claim5_catch_all (env : Env) (store : List Topic) (cache : List CacheEntry)
    (q sector : String) (off : Bool) (e : String)
    (h : getTopicContentBody env store cache q sector off = Except.error e) :
    get_advanced_topic_content env store cache q sector off =
      ⟨"An error occurred: " ++ e, none, store, cache, []⟩ := by
  unfold get_advanced_topic_content
  rw [h]

/-- C5 witness: a storage failure at the head of the request is caught and
surfaced as the textual error answer with a null link. -/
theorem claim5_catch_all_witness :
    getTopicContentBody envDown [] [] "q" "physics" false = Except.error "db down" ∧
    get_advanced_topic_content envDown [] [] "q" "physics" false =
      ⟨"An error occurred: db down", none, [], [], []⟩ :=
  ⟨rfl, claim5_catch_all envDown [] [] "q" "physics" false "db down" rfl⟩

/-- C6: for every query, preferences and store contents, the sequence
returned by `advanced_search` has non-increasing scores, contains no result
with score ≤ 0, has length ≤ 10, and (scores being the constant 0.5 of
`calculate_relevance_score`) equals the first 10 store rows in scan order —
ties are broken by stable input order. -/
theorem claim6_search_invariants (store : List Topic) (q : String) (prefs : Option String) :
    List.Chain' (fun a b => b.2.2 ≤ a.2.2) (advanced_search store q prefs) ∧
    (∀ x ∈ advanced_search store q prefs, 0 < x.2.2) ∧
    (advanced_search store q prefs).length ≤ 10 ∧
    advanced_search store q prefs =
      (store.map (fun t => (t.sector, t.content, (0.5 : ℚ)))).take 10 := by
  have he := advanced_search_eq_take_map store q prefs
  have hmem : ∀ x ∈ advanced_search store q prefs, x.2.2 = (0.5 : ℚ) := by
    intro x hx
    rw [he] at hx
    obtain ⟨t, _, rfl⟩ := List.mem_map.mp (List.mem_of_mem_take hx)
    rfl
  refine ⟨chain_of_score_const _ (0.5 : ℚ) hmem, ?_, ?_, he⟩
  · intro x hx
    rw [hmem x hx]
    norm_num
  · rw [he, List.length_take]
    exact min_le_left _ _

/-- C7 counterexample. The claim says `advanced_search` catches a
StorageFailure and returns an empty result set; the function has no
exception handler (src/main.py lines 140-148), so with the storage layer
failing it surfaces the error rather than `Except.ok []`. -/
theorem claim7_storage_failure_cex :
    advanced_searchE envDown [] "q" none = Except.error "db down" ∧
    advanced_searchE envDown [] "q" none ≠ Except.ok [] := by
  refine ⟨rfl, ?_⟩
  intro h
  simp [advanced_searchE, envDown] at h

/-- C7 (amended): a StorageFailure during the search path is not caught by
`advanced_search`; it propagates to the caller as an unhandled fault, and no
empty result set is returned in its place. -/
theorem claim7_storage_failure_propagates (env : Env) (store : List Topic)
    (q : String) (prefs : Option String) (e : String)
    (h : env.storeFault = some e) :
    advanced_searchE env store q prefs = Except.error e := by
  unfold advanced_searchE
  rw [h]

/-- C7 witness: the propagation theorem at a concrete failing environment. -/
theorem claim7_storage_failure_propagates_witness :
    envDown.storeFault = some "db down" ∧
    advanced_searchE envDown [] "q" none = Except.error "db down" :=
  ⟨rfl, claim7_storage_failure_propagates envDown [] "q" none "db down" rfl⟩

/-- C1: for a sector with no stored Topic, offline_mode = false and a
successful External Refresh Client payload, `get_topic_content` upserts the
Topic Store with that content and further_reading (last_update = now),
populates the TTL Cache under `api_<sector>` with TTL 1 hour
(expiry = now + 3600), and returns an answer derived from the new content
paired with the fetched further_reading link. (The enrichment cache entry
for the sector, if any, must deserialize to a summary list.) -/
theorem claim1_refresh_success (env : Env) (store : List Topic) (cache : List CacheEntry)
    (q sector : String) (payload : ApiPayload)
    (hfault : env.storeFault = none)
    (hA : storeFind store sector = none)
    (hapi : env.api sector = some payload)
    (hacad : ∀ p, cacheGet cache env.now ("academic_" ++ sector) ≠ some (Val.apiData p)) :
    storeFind (get_advanced_topic_content env store cache q sector false).store sector =
      some ⟨sector, payload.content, payload.further_reading, env.now⟩ ∧
    (⟨"api_" ++ sector, Val.apiData payload, env.now + 3600⟩ : CacheEntry) ∈
      (get_advanced_topic_content env store cache q sector false).cache ∧
    (∃ acad, (get_advanced_topic_content env store cache q sector false).answer =
      placeholderAnswer (buildContext payload.content acad) q) ∧
    (get_advanced_topic_content env store cache q sector false).link =
      some payload.further_reading := by
  have hsf : should_fetch_from_api env.now store sector = true := by
    unfold should_fetch_from_api
    rw [hA]
  have hrs := refreshStep_api_success env store cache sector payload hsf hapi
  have hfind : storeFind
      (storeUpsert store ⟨sector, payload.content, payload.further_reading, env.now⟩) sector =
      some ⟨sector, payload.content, payload.further_reading, env.now⟩ :=
    storeFind_upsert_absent store _ hA
  have hacad1 : ∀ p,
      cacheGet (cacheSet cache env.now ("api_" ++ sector) (Val.apiData payload) 3600)
        env.now ("academic_" ++ sector) ≠ some (Val.apiData p) := by
    intro p
    rw [cacheGet_cacheSet_ne cache env.now env.now _ _ _ _
      (fun h => apiKey_ne_academicKey sector sector h.symm)]
    exact hacad p
  obtain ⟨acad, cache2, evs2, hen⟩ := enrichStep_ok_of_no_apiData env
    (cacheSet cache env.now ("api_" ++ sector) (Val.apiData payload) 3600) sector hacad1
  have hmem1 : (⟨"api_" ++ sector, Val.apiData payload, env.now + 3600⟩ : CacheEntry) ∈
      cacheSet cache env.now ("api_" ++ sector) (Val.apiData payload) 3600 :=
    List.mem_cons_self _ _
  have hmem2 := mem_enrich_cache env _ sector _ hmem1
    (fun h => apiKey_ne_academicKey sector sector h)
  rw [hen] at hmem2
  have hg : get_advanced_topic_content env store cache q sector false =
      ⟨placeholderAnswer
          (buildContext payload.content acad) q,
        some payload.further_reading,
        storeUpsert store ⟨sector, payload.content, payload.further_reading, env.now⟩,
        cache2, [Event.apiCall sector] ++ evs2⟩ := by
    unfold get_advanced_topic_content getTopicContentBody postRefresh
    simp only [hfault, hrs, hfind, Bool.false_eq_true, if_false, hen]
  rw [hg]
  exact ⟨hfind, hmem2, ⟨acad, rfl⟩, rfl⟩

/-- C1 witness: Scenario A at a concrete input — sector "physics" absent,
refresh returns ("Newton content", "http://x"). -/
theorem claim1_refresh_success_witness :
    storeFind [] "physics" = none ∧
    (storeFind (get_advanced_topic_content envRefresh [] [] "q" "physics" false).store "physics" =
      some ⟨"physics", "Newton content", "http://x", 1000⟩ ∧
    (⟨"api_" ++ "physics", Val.apiData ⟨"Newton content", "http://x"⟩, 4600⟩ : CacheEntry) ∈
      (get_advanced_topic_content envRefresh [] [] "q" "physics" false).cache ∧
    (∃ acad, (get_advanced_topic_content envRefresh [] [] "q" "physics" false).answer =
      placeholderAnswer (buildContext "Newton content" acad) "q") ∧
    (get_advanced_topic_content envRefresh [] [] "q" "physics" false).link = some "http://x") :=
  ⟨rfl, claim1_refresh_success envRefresh [] [] "q" "physics" ⟨"Newton content", "http://x"⟩
    rfl rfl rfl (fun _ h => Option.noConfusion h)⟩

/-- C3: for a sector with a stored Topic and offline_mode = false, when the
External Refresh Client fails the request still succeeds: the answer is
derived from the currently stored content, the further_reading link is the
stored one, and the Topic Store is unchanged — refresh failure is never
fatal to the request. (The enrichment cache entry for the sector, if any,
must deserialize to a summary list.) -/
theorem claim3_refresh_failure_graceful (env : Env) (store : List Topic)
    (cache : List CacheEntry) (q sector : String) (t : Topic)
    (hfault : env.storeFault = none)
    (ht : storeFind store sector = some t)
    (hapi : env.api sector = none)
    (hacad : ∀ p, cacheGet cache env.now ("academic_" ++ sector) ≠ some (Val.apiData p)) :
    getTopicContentBody env store cache q sector false =
      Except.ok (get_advanced_topic_content env store cache q sector false) ∧
    (∃ acad, (get_advanced_topic_content env store cache q sector false).answer =
      placeholderAnswer (buildContext t.content acad) q) ∧
    (get_advanced_topic_content env store cache q sector false).link =
      some t.further_reading ∧
    (get_advanced_topic_content env store cache q sector false).store = store := by
  have hrs := refreshStep_api_fail env store cache sector hapi
  obtain ⟨acad, cache2, evs2, hen⟩ := enrichStep_ok_of_no_apiData env cache sector hacad
  have hbody : getTopicContentBody env store cache q sector false =
      Except.ok ⟨placeholderAnswer (buildContext t.content acad) q,
        some t.further_reading, store, cache2,
        (if should_fetch_from_api env.now store sector then [Event.apiCall sector] else []) ++
          evs2⟩ := by
    unfold getTopicContentBody postRefresh
    simp only [hfault, hrs, ht, Bool.false_eq_true, if_false, hen]
  have hg : get_advanced_topic_content env store cache q sector false =
      ⟨placeholderAnswer (buildContext t.content acad) q,
        some t.further_reading, store, cache2,
        (if should_fetch_from_api env.now store sector then [Event.apiCall sector] else []) ++
          evs2⟩ := by
    unfold get_advanced_topic_content
    rw [hbody]
  rw [hg, hbody]
  exact ⟨rfl, ⟨acad, rfl⟩, rfl, rfl⟩

/-- C3 witness: Scenario B at a concrete input — stored "physics" Topic,
refresh client fails, the response is derived from the stored content with
the stored link. -/
theorem claim3_refresh_failure_graceful_witness :
    storeFind [topicP] "physics" = some topicP ∧
    (getTopicContentBody envQuiet [topicP] [] "q" "physics" false =
      Except.ok (get_advanced_topic_content envQuiet [topicP] [] "q" "physics" false) ∧
    (∃ acad, (get_advanced_topic_content envQuiet [topicP] [] "q" "physics" false).answer =
      placeholderAnswer (buildContext topicP.content acad) "q") ∧
    (get_advanced_topic_content envQuiet [topicP] [] "q" "physics" false).link =
      some topicP.further_reading ∧
    (get_advanced_topic_content envQuiet [topicP] [] "q" "physics" false).store = [topicP]) :=
  ⟨rfl, claim3_refresh_failure_graceful envQuiet [topicP] [] "q" "physics" topicP
    rfl rfl rfl (fun _ h => Option.noConfusion h)⟩

/-- C4: for a sector that has no stored Topic even after the optional
refresh step (here: the External Refresh Client fails, for either value of
offline_mode), `get_topic_content` returns the fixed "no information"
answer with a null link, as a normal successful (`Except.ok`) outcome. -/
theorem claim4_no_info_outcome (env : Env) (store : List Topic) (cache : List CacheEntry)
    (q sector : String) (off : Bool)
    (hfault : env.storeFault = none)
    (hA : storeFind store sector = none)
    (hapi : env.api sector = none) :
    getTopicContentBody env store cache q sector off =
      Except.ok (get_advanced_topic_content env store cache q sector off) ∧
    (get_advanced_topic_content env store cache q sector off).answer = noInfoMsg ∧
    (get_advanced_topic_content env store cache q sector off).link = none := by
  cases off with
  | true =>
    have hbody : getTopicContentBody env store cache q sector true =
        Except.ok ⟨noInfoMsg, none, store, cache, []⟩ := by
      unfold getTopicContentBody refreshStep postRefresh
      simp only [hfault, Bool.not_true, Bool.false_and, Bool.false_eq_true, if_false, hA]
    have hg : get_advanced_topic_content env store cache q sector true =
        ⟨noInfoMsg, none, store, cache, []⟩ := by
      unfold get_advanced_topic_content
      rw [hbody]
    rw [hg, hbody]
    exact ⟨rfl, rfl, rfl⟩
  | false =>
    have hrs := refreshStep_api_fail env store cache sector hapi
    have hbody : getTopicContentBody env store cache q sector false =
        Except.ok ⟨noInfoMsg, none, store, cache,
          if should_fetch_from_api env.now store sector then [Event.apiCall sector] else []⟩ := by
      unfold getTopicContentBody postRefresh
      simp only [hfault, hrs, hA]
    have hg : get_advanced_topic_content env store cache q sector false =
        ⟨noInfoMsg, none, store, cache,
          if should_fetch_from_api env.now store sector then [Event.apiCall sector] else []⟩ := by
      unfold get_advanced_topic_content
      rw [hbody]
    rw [hg, hbody]
    exact ⟨rfl, rfl, rfl⟩

/-- C4 witness: unknown sector with a failing refresh client yields the
fixed "no information" answer and a null link. -/
theorem claim4_no_info_outcome_witness :
    storeFind [] "physics" = none ∧
    (getTopicContentBody envQuiet [] [] "q" "physics" false =
      Except.ok (get_advanced_topic_content envQuiet [] [] "q" "physics" false) ∧
    (get_advanced_topic_content envQuiet [] [] "q" "physics" false).answer = noInfoMsg ∧
    (get_advanced_topic_content envQuiet [] [] "q" "physics" false).link = none) :=
  ⟨rfl, claim4_no_info_outcome envQuiet [] [] "q" "physics" false rfl rfl rfl⟩

/-- C8: in offline_mode = true the run is determined by the store alone —
two calls under any environments and caches (same store, no intervening
Topic Store mutation) return the same (answer, link), leave the store and
cache untouched, and make no network-client calls at all. -/
theorem claim8_offline_idempotent (env env2 : Env) (store : List Topic)
    (cache cache2 : List CacheEntry) (q sector : String)
    (hfault : env.storeFault = none) (hfault2 : env2.storeFault = none) :
    ∃ a l, get_advanced_topic_content env store cache q sector true =
        ⟨a, l, store, cache, []⟩ ∧
      get_advanced_topic_content env2 store cache2 q sector true =
        ⟨a, l, store, cache2, []⟩ := by
  cases ht : storeFind store sector with
  | none =>
    exact ⟨noInfoMsg, none,
      by simp [get_advanced_topic_content, getTopicContentBody, refreshStep, postRefresh,
        hfault, ht],
      by simp [get_advanced_topic_content, getTopicContentBody, refreshStep, postRefresh,
        hfault2, ht]⟩
  | some t =>
    exact ⟨placeholderAnswer t.content q, some t.further_reading,
      by simp [get_advanced_topic_content, getTopicContentBody, refreshStep, postRefresh,
        hfault, ht],
      by simp [get_advanced_topic_content, getTopicContentBody, refreshStep, postRefresh,
        hfault2, ht]⟩

/-- C8 witness: two offline calls (different environments and caches, same
store) produce the same output and no client calls. -/
theorem claim8_offline_idempotent_witness :
    ∃ a l, get_advanced_topic_content envQuiet [topicP] [] "q" "physics" true =
        ⟨a, l, [topicP], [], []⟩ ∧
      get_advanced_topic_content envRefresh [topicP] cacheApiOnly "q" "physics" true =
        ⟨a, l, [topicP], cacheApiOnly, []⟩ :=
  claim8_offline_idempotent envQuiet envRefresh [topicP] [] cacheApiOnly "q" "physics" rfl rfl

/-- C9: after a successful enrichment fetch populated `academic_<sector>`
at time t0, any subsequent `get_topic_content` call for the sector within
the 1-hour TTL window (fresh or stale stored Topic, refresh succeeding or
failing) reads the cached value: the answer is built from the context with
exactly those summaries appended, one per line in order, the link is the
(possibly refreshed) topic's further_reading, and the Enrichment Client is
not re-invoked. -/
theorem claim9_cache_round_trip (env : Env) (store : List Topic)
    (cache0 : List CacheEntry) (q sector : String) (t : Topic)
    (summaries : List String) (t0 : Int)
    (hfault : env.storeFault = none)
    (ht : storeFind store sector = some t)
    (httl : env.now < t0 + 3600) :
    ∃ topic : Topic,
      (get_advanced_topic_content env store
          (cacheSet cache0 t0 ("academic_" ++ sector) (Val.academicData summaries) 3600)
          q sector false).answer =
        placeholderAnswer (buildContext topic.content (some summaries)) q ∧
      (get_advanced_topic_content env store
          (cacheSet cache0 t0 ("academic_" ++ sector) (Val.academicData summaries) 3600)
          q sector false).link = some topic.further_reading ∧
      Event.academicCall sector ∉
        (get_advanced_topic_content env store
          (cacheSet cache0 t0 ("academic_" ++ sector) (Val.academicData summaries) 3600)
          q sector false).events := by
  have hhit := cacheGet_cacheSet_hit cache0 t0 env.now ("academic_" ++ sector)
    (Val.academicData summaries) 3600 httl
  cases hsf : should_fetch_from_api env.now store sector with
  | false =>
    have hrs : refreshStep env store
        (cacheSet cache0 t0 ("academic_" ++ sector) (Val.academicData summaries) 3600)
        sector false =
        (store, cacheSet cache0 t0 ("academic_" ++ sector) (Val.academicData summaries) 3600,
          []) := by
      unfold refreshStep
      rw [hsf]
      simp
    have hg : get_advanced_topic_content env store
        (cacheSet cache0 t0 ("academic_" ++ sector) (Val.academicData summaries) 3600)
        q sector false =
        ⟨placeholderAnswer (buildContext t.content (some summaries)) q,
          some t.further_reading, store,
          cacheSet cache0 t0 ("academic_" ++ sector) (Val.academicData summaries) 3600,
          []⟩ := by
      unfold get_advanced_topic_content getTopicContentBody postRefresh enrichStep
      simp only [hfault, hrs, ht, Bool.false_eq_true, if_false, hhit, List.nil_append]
    exact ⟨t, by rw [hg], by rw [hg], by rw [hg]; simp⟩
  | true =>
    cases hapi : env.api sector with
    | none =>
      have hrs : refreshStep env store
          (cacheSet cache0 t0 ("academic_" ++ sector) (Val.academicData summaries) 3600)
          sector false =
          (store, cacheSet cache0 t0 ("academic_" ++ sector) (Val.academicData summaries) 3600,
            [Event.apiCall sector]) := by
        rw [refreshStep_api_fail env store _ sector hapi, hsf]
        simp
      have hg : get_advanced_topic_content env store
          (cacheSet cache0 t0 ("academic_" ++ sector) (Val.academicData summaries) 3600)
          q sector false =
          ⟨placeholderAnswer (buildContext t.content (some summaries)) q,
            some t.further_reading, store,
            cacheSet cache0 t0 ("academic_" ++ sector) (Val.academicData summaries) 3600,
            [Event.apiCall sector]⟩ := by
        unfold get_advanced_topic_content getTopicContentBody postRefresh enrichStep
        simp only [hfault, hrs, ht, Bool.false_eq_true, if_false, hhit, List.append_nil]
      exact ⟨t, by rw [hg], by rw [hg], by rw [hg]; simp⟩
    | some payload =>
      have hrs := refreshStep_api_success env store
        (cacheSet cache0 t0 ("academic_" ++ sector) (Val.academicData summaries) 3600)
        sector payload hsf hapi
      have hfind := storeFind_upsert_found store
        ⟨sector, payload.content, payload.further_reading, env.now⟩ t ht
      have hcg1 : cacheGet
          (cacheSet (cacheSet cache0 t0 ("academic_" ++ sector)
            (Val.academicData summaries) 3600)
            env.now ("api_" ++ sector) (Val.apiData payload) 3600)
          env.now ("academic_" ++ sector) = some (Val.academicData summaries) := by
        rw [cacheGet_cacheSet_ne _ env.now env.now _ _ _ _
          (fun h => apiKey_ne_academicKey sector sector h.symm)]
        exact hhit
      have hg : get_advanced_topic_content env store
          (cacheSet cache0 t0 ("academic_" ++ sector) (Val.academicData summaries) 3600)
          q sector false =
          ⟨placeholderAnswer (buildContext payload.content (some summaries)) q,
            some payload.further_reading,
            storeUpsert store ⟨sector, payload.content, payload.further_reading, env.now⟩,
            cacheSet (cacheSet cache0 t0 ("academic_" ++ sector)
              (Val.academicData summaries) 3600)
              env.now ("api_" ++ sector) (Val.apiData payload) 3600,
            [Event.apiCall sector]⟩ := by
        unfold get_advanced_topic_content getTopicContentBody postRefresh enrichStep
        simp only [hfault, hrs, hfind, Bool.false_eq_true, if_false, hcg1, List.append_nil]
      exact ⟨⟨t.sector, payload.content, payload.further_reading, env.now⟩,
        by rw [hg], by rw [hg], by rw [hg]; simp⟩

/-- C9 witness: Scenario-B-like concrete input — a 10-day-old stored Topic
(refresh attempted and failing) with an enrichment entry cached 1000 s ago:
the cached summaries are appended and the Enrichment Client is not called. -/
theorem claim9_cache_round_trip_witness :
    storeFind [topicP] "physics" = some topicP ∧
    should_fetch_from_api envLate.now [topicP] "physics" = true ∧
    (∃ topic : Topic,
      (get_advanced_topic_content envLate [topicP]
          (cacheSet [] 863000 ("academic_" ++ "physics") (Val.academicData ["s1", "s2"]) 3600)
          "q" "physics" false).answer =
        placeholderAnswer (buildContext topic.content (some ["s1", "s2"])) "q" ∧
      (get_advanced_topic_content envLate [topicP]
          (cacheSet [] 863000 ("academic_" ++ "physics") (Val.academicData ["s1", "s2"]) 3600)
          "q" "physics" false).link = some topic.further_reading ∧
      Event.academicCall "physics" ∉
        (get_advanced_topic_content envLate [topicP]
          (cacheSet [] 863000 ("academic_" ++ "physics") (Val.academicData ["s1", "s2"]) 3600)
          "q" "physics" false).events) :=
  ⟨rfl, by decide,
    claim9_cache_round_trip envLate [topicP] [] "q" "physics" topicP ["s1", "s2"] 863000
      rfl rfl (by decide)⟩

/-- C10: the `api_*` cache entries are write-only for this core. Two
`get_topic_content` runs that differ only in cache entries under `api_*`
keys (the caches agree on every key that is not `api_<x>`) produce the same
answer, link, final store and client-call events. (`advanced_search` takes
no cache input at all, so its independence from the cache is definitional.) -/
theorem claim10_api_cache_write_only (env : Env) (store : List Topic)
    (cache1 cache2 : List CacheEntry) (q sector : String) (off : Bool)
    (hagree : ∀ k, (∀ x, k ≠ "api_" ++ x) →
      cacheGet cache1 env.now k = cacheGet cache2 env.now k) :
    (get_advanced_topic_content env store cache1 q sector off).answer =
      (get_advanced_topic_content env store cache2 q sector off).answer ∧
    (get_advanced_topic_content env store cache1 q sector off).link =
      (get_advanced_topic_content env store cache2 q sector off).link ∧
    (get_advanced_topic_content env store cache1 q sector off).store =
      (get_advanced_topic_content env store cache2 q sector off).store ∧
    (get_advanced_topic_content env store cache1 q sector off).events =
      (get_advanced_topic_content env store cache2 q sector off).events := by
  have hak : ∀ x, ("academic_" ++ sector : String) ≠ "api_" ++ x :=
    fun x h => apiKey_ne_academicKey x sector h.symm
  have hmap : (getTopicContentBody env store cache1 q sector off).map
        (fun r => (r.answer, r.link, r.store, r.events)) =
      (getTopicContentBody env store cache2 q sector off).map
        (fun r => (r.answer, r.link, r.store, r.events)) := by
    unfold getTopicContentBody
    cases hfault : env.storeFault with
    | some e => rfl
    | none =>
      cases off with
      | true =>
        have h1 : refreshStep env store cache1 sector true = (store, cache1, []) := rfl
        have h2 : refreshStep env store cache2 sector true = (store, cache2, []) := rfl
        rw [h1, h2]
        exact postRefresh_agree env store cache1 cache2 [] q sector true (hagree _ hak)
      | false =>
        obtain ⟨hs1, he1, hc1⟩ := refresh_cache_agree env store cache1 cache2 sector hagree
        rcases hr1 : refreshStep env store cache1 sector false with ⟨s1, c1, e1⟩
        rcases hr2 : refreshStep env store cache2 sector false with ⟨s2, c2, e2⟩
        rw [hr1, hr2] at hs1 he1 hc1
        simp only at hs1 he1 hc1
        rw [hs1, he1]
        exact postRefresh_agree env s2 c1 c2 e2 q sector false hc1
  cases hb1 : getTopicContentBody env store cache1 q sector off with
  | error e1 =>
    cases hb2 : getTopicContentBody env store cache2 q sector off with
    | error e2 =>
      rw [hb1, hb2] at hmap
      simp only [Except.map] at hmap
      injection hmap with h
      subst h
      simp [get_advanced_topic_content, hb1, hb2]
    | ok r2 =>
      rw [hb1, hb2] at hmap
      simp [Except.map] at hmap
  | ok r1 =>
    cases hb2 : getTopicContentBody env store cache2 q sector off with
    | error e2 =>
      rw [hb1, hb2] at hmap
      simp [Except.map] at hmap
    | ok r2 =>
      rw [hb1, hb2] at hmap
      simp only [Except.map] at hmap
      injection hmap with h
      simp only [Prod.mk.injEq] at h
      obtain ⟨h1, h2, h3, h4⟩ := h
      unfold get_advanced_topic_content
      rw [hb1, hb2]
      exact ⟨h1, h2, h3, h4⟩

/-- C10 witness: a run with an `api_physics` cache entry and a run with an
empty cache produce identical observable output. -/
theorem claim10_api_cache_write_only_witness :
    (get_advanced_topic_content envQuiet [topicP] cacheApiOnly "q" "physics" false).answer =
      (get_advanced_topic_content envQuiet [topicP] [] "q" "physics" false).answer ∧
    (get_advanced_topic_content envQuiet [topicP] cacheApiOnly "q" "physics" false).link =
      (get_advanced_topic_content envQuiet [topicP] [] "q" "physics" false).link ∧
    (get_advanced_topic_content envQuiet [topicP] cacheApiOnly "q" "physics" false).store =
      (get_advanced_topic_content envQuiet [topicP] [] "q" "physics" false).store ∧
    (get_advanced_topic_content envQuiet [topicP] cacheApiOnly "q" "physics" false).events =
      (get_advanced_topic_content envQuiet [topicP] [] "q" "physics" false).events :=
  claim10_api_cache_write_only envQuiet [topicP] cacheApiOnly [] "q" "physics" false
    (by
      intro k hk
      have hne : k ≠ "api_physics" := fun h => hk "physics" (h.trans rfl)
      have hbeq : ("api_physics" == k) = false := beq_eq_false_iff_ne.mpr (Ne.symm hne)
      simp [cacheGet, cacheApiOnly, hbeq])

end Hmd
